import Mathlib

/-!
Verification development for the Cardinal game-shard core (world-engine).

The definitions below embed, in order:
  - the persona system (persona.go: RegisterPersonaSystem, GetSignerForPersonaTag,
    isAlphanumericWithUnderscore) and the signature verifier
    (server/verify.go: verifySignature, getSignerAddressFromPayload);
  - the tick scheduler with its entity-command buffer and recovery path
    (modelled from the spec, since the scheduler source is not in this snapshot);
  - the receipt history window, the CQL filter evaluator and the receipt
    result/error operations (likewise modelled from the spec where the source
    is absent, pinned against the repository's tests).
-/

namespace WorldEngine

/-! ## Persona data (persona.go) -/

/-- Embeds `SignerComponent` from persona.go: `(PersonaTag, SignerAddress, AuthorizedAddresses)`. -/
structure SignerComponent where
  personaTag : String
  signerAddress : String
  authorizedAddresses : List String
deriving Repr, DecidableEq

/-- A character matched by the character class of `regexpObj = ^[a-zA-Z0-9_]+$` (persona.go). -/
def isTagChar (c : Char) : Bool :=
  c.isAlphanum || c == '_'

/-- Embeds `isAlphanumericWithUnderscore` from persona.go: `regexpObj.MatchString s` with
the anchored pattern `^[a-zA-Z0-9_]+$`, i.e. the string is nonempty and every character
is an ASCII alphanumeric or underscore. -/
def isAlphanumericWithUnderscore (s : String) : Bool :=
  !(s == "") && s.toList.all isTagChar

/-- Embeds the content of `CreatePersona` from persona.go. -/
structure CreatePersona where
  personaTag : String
  signerAddress : String
deriving Repr, DecidableEq

/-- Embeds `CreatePersonaResult` from persona.go. -/
structure CreatePersonaResult where
  success : Bool
deriving Repr, DecidableEq

/-- Lowercasing as used for persona-tag comparison (Go strings.ToLower): lowercase every
character of the string. -/
def toLowerStr (s : String) : String :=
  ⟨s.data.map Char.toLower⟩

/-- Go-map style insert for an association list: the new binding is placed in front and
shadows any older one under `mapLookup`, which takes the first match. -/
def mapInsert (m : List (String × String)) (k v : String) : List (String × String) :=
  (k, v) :: m

/-- Go-map style lookup for an association list. -/
def mapLookup (m : List (String × String)) (k : String) : Option String :=
  (m.find? (fun p => p.1 == k)).map (fun p => p.2)

/-- Embeds `buildPersonaTagMapping` from persona.go: iterate entities holding a
`SignerComponent` and index the lowercased persona tag to its signer address. -/
def buildPersonaTagMapping (records : List SignerComponent) : List (String × String) :=
  records.foldl (fun m sc => mapInsert m (toLowerStr sc.personaTag) sc.signerAddress) []

/-- Failure cases of the create-persona closure in `RegisterPersonaSystem` (persona.go). -/
inductive CreatePersonaError where
  | invalidTag
  | duplicateTag
deriving Repr, DecidableEq

/-- Embeds the per-message closure of `RegisterPersonaSystem` (persona.go): reject a tag
that fails the regex, reject a tag already present in the lowercased mapping, otherwise
create an entity bearing a `SignerComponent` with the message's tag and address (the
message's `signerAddress` field is not inspected further). Returns updated records,
updated mapping, the result and the optional error. -/
def createPersonaStep (records : List SignerComponent) (mapping : List (String × String))
    (msg : CreatePersona) :
    List SignerComponent × List (String × String) × CreatePersonaResult ×
      Option CreatePersonaError :=
  if !(isAlphanumericWithUnderscore msg.personaTag) then
    (records, mapping, ⟨false⟩, some .invalidTag)
  else
    match mapLookup mapping (toLowerStr msg.personaTag) with
    | some _ => (records, mapping, ⟨false⟩, some .duplicateTag)
    | none =>
        (records ++ [⟨msg.personaTag, msg.signerAddress, []⟩],
         mapInsert mapping (toLowerStr msg.personaTag) msg.signerAddress,
         ⟨true⟩, none)

/-- Embeds `RegisterPersonaSystem` (persona.go) applied to one drained message: the
mapping is rebuilt from the current records at the start of the tick. -/
def registerPersonaOne (records : List SignerComponent) (msg : CreatePersona) :
    List SignerComponent × CreatePersonaResult × Option CreatePersonaError :=
  let r := createPersonaStep records (buildPersonaTagMapping records) msg
  (r.1, r.2.2.1, r.2.2.2)

/-- Embeds `RegisterPersonaSystem` (persona.go) over the whole drained list of
create-persona messages, threading the mapping exactly as the Go loop does. -/
def registerPersonaSystem (records : List SignerComponent) (msgs : List CreatePersona) :
    List SignerComponent × List (CreatePersonaResult × Option CreatePersonaError) :=
  let step := fun (acc : List SignerComponent × List (String × String) ×
      List (CreatePersonaResult × Option CreatePersonaError)) msg =>
    let r := createPersonaStep acc.1 acc.2.1 msg
    (r.1, r.2.1, acc.2.2 ++ [(r.2.2.1, r.2.2.2)])
  let out := msgs.foldl step (records, buildPersonaTagMapping records, [])
  (out.1, out.2.2)

/-- Modelled from the spec: "signerAddress must be a valid 20-byte hex address" —
go-ethereum `common.IsHexAddress` semantics (an optional 0x/0X prefix followed by
exactly 40 hexadecimal digits); the go-ethereum source is not part of this snapshot. -/
def isHexDigitChar (c : Char) : Bool :=
  c.isDigit || (decide ('a' ≤ c) && decide (c ≤ 'f')) || (decide ('A' ≤ c) && decide (c ≤ 'F'))

/-- Modelled from the spec: validity of a 20-byte hex address (see `isHexDigitChar`) —
an optional 0x or 0X prefix is stripped, then exactly 40 hex digits must remain. -/
def isHexAddress (s : String) : Bool :=
  let cs := s.data
  let t := if cs.take 2 = ['0', 'x'] ∨ cs.take 2 = ['0', 'X'] then cs.drop 2 else cs
  t.length == 40 && t.all isHexDigitChar

/-! ## Signer lookup (persona.go: GetSignerForPersonaTag) -/

/-- Errors of `GetSignerForPersonaTag` (persona.go). -/
inductive GetSignerError where
  | createPersonaTxsNotProcessed
  | personaTagHasNoSigner
deriving Repr, DecidableEq

/-- The part of the ecs world state that `GetSignerForPersonaTag` consults: the current
tick counter and the entities carrying a `SignerComponent`, in search iteration order. -/
structure PersonaWorld where
  currentTick : Nat
  records : List SignerComponent
deriving Repr, DecidableEq

/-- Embeds `GetSignerForPersonaTag` (persona.go): error when `tick >= w.CurrentTick()`;
otherwise scan the signer components and stop at the first whose `PersonaTag` equals
(case-sensitively, Go `==`) the requested tag; if no address was found (`addr == ""`)
return `ErrPersonaTagHasNoSigner`. -/
def getSignerForPersonaTag (w : PersonaWorld) (personaTag : String) (tick : Nat) :
    Except GetSignerError String :=
  if w.currentTick ≤ tick then .error .createPersonaTxsNotProcessed
  else
    match w.records.find? (fun sc => sc.personaTag == personaTag) with
    | some sc =>
        if sc.signerAddress == "" then .error .personaTagHasNoSigner
        else .ok sc.signerAddress
    | none => .error .personaTagHasNoSigner

/-! ## Signature verification (server/verify.go: verifySignature) -/

/-- Embeds `sign.Transaction` as consumed by `verifySignature`. The `sign` package is not
in this snapshot, so two of its aspects are modelled from the spec: `isSystemTx` stands
for `IsSystemTransaction()` ("a system transaction omits personaTag binding and carries
the signer address inside its body"), and `body` stands for the decoded
`ecs.CreatePersona` payload (`none` when the body does not decode). -/
structure Transaction where
  personaTag : String
  txNamespace : String
  nonce : Nat
  isSystemTx : Bool
  body : Option CreatePersona
deriving Repr, DecidableEq

/-- Failure cases surfaced by `verifySignature` (server/verify.go). -/
inductive VerifyError where
  | emptyPersonaTag
  | wrongNamespace
  | systemTransactionRequired
  | systemTransactionForbidden
  | bodyDecodeFailed
  | signerLookupFailed (e : GetSignerError)
  | invalidSignature
  | nonceReused
deriving Repr, DecidableEq

/-- Embeds `getSignerAddressFromPayload` (server/verify.go): decode the body into
`CreatePersona` and return its `SignerAddress`. -/
def getSignerAddressFromPayload (sp : Transaction) : Except VerifyError String :=
  match sp.body with
  | some msg => .ok msg.signerAddress
  | none => .error .bodyDecodeFailed

/-- The server-side state that `verifySignature` reads and writes: the verification
toggle and world namespace string (fields of `Handler`), the persona world used by
`GetSignerForPersonaTag`, and the used `(signerAddress, nonce)` set behind
`World.UseNonce` (the nonce-set store is not in this snapshot and is modelled from the
spec: "set of used (signer,nonce) pairs"). -/
structure Handler where
  disableSigVerification : Bool
  worldNamespace : String
  world : PersonaWorld
  nonceSet : List (String × Nat)
deriving Repr, DecidableEq

/-- Modelled from the spec: `World.UseNonce` — "Atomically insert `(signerAddress,
nonce)` into the nonce set; reject on duplicate." -/
def useNonce (s : List (String × Nat)) (addr : String) (nonce : Nat) :
    Except VerifyError (List (String × Nat)) :=
  if (addr, nonce) ∈ s then .error .nonceReused else .ok ((addr, nonce) :: s)

/-- Embeds the signer-address resolution step of `verifySignature` (server/verify.go
lines 59-70): system transactions read the address from the payload, other transactions
call `GetSignerForPersonaTag(sp.PersonaTag, 0)`. -/
def resolveSigner (h : Handler) (sp : Transaction) : Except VerifyError String :=
  if sp.isSystemTx then getSignerAddressFromPayload sp
  else
    match getSignerForPersonaTag h.world sp.personaTag 0 with
    | .ok a => .ok a
    | .error e => .error (.signerLookupFailed e)

/-- Embeds `verifySignature` (server/verify.go). `cryptoVerify` abstracts
`sp.Verify(signerAddress)` from the absent `sign` package. The checks run in source
order: empty persona tag, the dev-mode bypass, namespace, the system flag both ways,
signer resolution, cryptographic verification, then the atomic nonce use. On success the
updated handler (with the consumed nonce) is returned. -/
def verifySignature (h : Handler) (cryptoVerify : Transaction → String → Bool)
    (sp : Transaction) (isSystemTransaction : Bool) : Except VerifyError Handler :=
  if sp.personaTag == "" then .error .emptyPersonaTag
  else if h.disableSigVerification then .ok h
  else if !(sp.txNamespace == h.worldNamespace) then .error .wrongNamespace
  else if isSystemTransaction && !sp.isSystemTx then .error .systemTransactionRequired
  else if !isSystemTransaction && sp.isSystemTx then .error .systemTransactionForbidden
  else
    match resolveSigner h sp with
    | .error e => .error e
    | .ok signerAddress =>
        if !(cryptoVerify sp signerAddress) then .error .invalidSignature
        else
          match useNonce h.nonceSet signerAddress sp.nonce with
          | .error e => .error e
          | .ok ns => .ok { h with nonceSet := ns }

/-- Modelled from the spec: the HTTP edge maps any signature-verification failure to
status 401 and success to 200 (spec section 6; the swagger route glue is not in this
snapshot). -/
def httpStatusOfVerify (r : Except VerifyError Handler) : Nat :=
  match r with
  | .error _ => 401
  | .ok _ => 200

/-- Sequentially process a list of submissions (transaction together with the handler's
expectation flag) through `verifySignature`, keeping the updated handler on success and
the previous handler on failure, and counting accepted submissions. -/
def processTxs (h : Handler) (cryptoVerify : Transaction → String → Bool) :
    List (Transaction × Bool) → Handler × Nat
  | [] => (h, 0)
  | t :: ts =>
    match verifySignature h cryptoVerify t.1 t.2 with
    | .ok h2 =>
        let r := processTxs h2 cryptoVerify ts
        (r.1, r.2 + 1)
    | .error _ => processTxs h cryptoVerify ts

/-! ## Tick scheduler with entity-command buffer (modelled from the spec) -/

/-- A committed component store: association of `(entityID, componentID)` to a value. -/
abbrev Store := List ((Nat × Nat) × Int)

/-- Read a component value from a committed store. -/
def storeGet (s : Store) (k : Nat × Nat) : Option Int :=
  (s.find? (fun p => p.1 == k)).map (fun p => p.2)

/-- Write a component value into a committed store (newest binding shadows older ones). -/
def storeSet (s : Store) (k : Nat × Nat) (v : Int) : Store :=
  (k, v) :: s.eraseP (fun p => p.1 == k)

/-- Modelled from the spec: the entity-command buffer is "an overlay map from
`(entityID, componentID)` to pending value" backed by the last-committed store for
reads; writes only touch the overlay. -/
structure Ecb where
  pending : List ((Nat × Nat) × Int)
deriving Repr, DecidableEq

/-- The empty overlay allocated at the start of each tick. -/
def Ecb.empty : Ecb := ⟨[]⟩

/-- Modelled from the spec: "Reads consult the overlay first, then the Store". -/
def ecbGet (base : Store) (e : Ecb) (k : Nat × Nat) : Option Int :=
  match (e.pending.find? (fun p => p.1 == k)).map (fun p => p.2) with
  | some v => some v
  | none => storeGet base k

/-- Modelled from the spec: "writes only touch the overlay". -/
def ecbSet (e : Ecb) (k : Nat × Nat) (v : Int) : Ecb :=
  ⟨(k, v) :: e.pending.eraseP (fun p => p.1 == k)⟩

/-- Modelled from the spec: `Flush` pushes the pending writes into the store as one
batch (applied oldest-first; the overlay keeps one binding per key). -/
def ecbFlush (base : Store) (e : Ecb) : Store :=
  e.pending.foldr (fun p st => storeSet st p.1 p.2) base

/-- A drained transaction: its hash and its decoded payload. -/
structure Tx where
  hash : Nat
  payload : Int
deriving Repr, DecidableEq

/-- A per-transaction receipt body: at most one result, and an accumulating error list. -/
structure TxReceipt where
  result : Option Int
  errs : List String
deriving Repr, DecidableEq

/-- The state a system works on during a tick: the last-committed store (read-only
base), the tick's entity-command buffer, and the tick's receipt map. -/
structure TickCtx where
  base : Store
  ecb : Ecb
  receipts : List (Nat × TxReceipt)
deriving Repr, DecidableEq

/-- A system, shallowly embedded: it receives the drained transaction list and the tick
context and either returns the updated context or an error (a recovered panic is
surfaced the same way). -/
abbrev GameSystem := List Tx → TickCtx → Except String TickCtx

/-- Run the registered systems in order, stopping at the first error. -/
def runSystems (systems : List GameSystem) (queue : List Tx) (ctx : TickCtx) :
    Except String TickCtx :=
  match systems with
  | [] => .ok ctx
  | s :: rest =>
    match s queue ctx with
    | .ok ctx2 => runSystems rest queue ctx2
    | .error e => .error e

/-- Modelled from the spec: "A receipt for every drained transaction exists by end of
tick, even if the system added nothing (empty result, empty errors)" — the scheduler
seeds one empty receipt per drained transaction. -/
def seedReceipts (queue : List Tx) : List (Nat × TxReceipt) :=
  queue.map (fun t => (t.hash, ⟨none, []⟩))

/-- The durable world state between ticks: the committed store and the tick counter. -/
structure WorldState where
  store : Store
  tick : Nat
deriving Repr, DecidableEq

/-- Modelled from the spec (tick scheduler, section 4.G): allocate a fresh ECB over the
current store, run the systems in registration order on the drained queue; if any
system returns an error the ECB is discarded and the world is left on the committed
state; otherwise the ECB op log is committed atomically, receipts are published and the
tick counter advances by one. Returns the new world state, the published receipts and
the error if the tick failed. -/
def tickWorld (systems : List GameSystem) (queue : List Tx) (w : WorldState) :
    WorldState × List (Nat × TxReceipt) × Option String :=
  match runSystems systems queue ⟨w.store, Ecb.empty, seedReceipts queue⟩ with
  | .error e => (w, [], some e)
  | .ok ctx => (⟨ecbFlush w.store ctx.ecb, w.tick + 1⟩, ctx.receipts, none)

/-- Modelled from the spec: queries "always collect game state data directly from the
storage DB" — a query observes the committed store only. -/
def queryComponent (w : WorldState) (k : Nat × Nat) : Option Int :=
  storeGet w.store k

/-! ## Durable log and recovery (modelled from the spec) -/

/-- Modelled from the spec (durable log, section 4.A): the final region holds the
last-committed state and tick counter; the pending region holds the batch tick being
produced together with the drained queue saved for it. -/
structure DurableStore where
  finalState : Store
  tickCounter : Nat
  pending : Option (Nat × List Tx)
deriving Repr, DecidableEq

/-- One deterministic tick execution from a committed store: run the systems over a
fresh ECB on the drained queue; on success return the flushed post-tick store and the
receipts. -/
def execTick (systems : List GameSystem) (base : Store) (queue : List Tx) :
    Except String (Store × List (Nat × TxReceipt)) :=
  match runSystems systems queue ⟨base, Ecb.empty, seedReceipts queue⟩ with
  | .error e => .error e
  | .ok ctx => .ok (ecbFlush base ctx.ecb, ctx.receipts)

/-- Modelled from the spec (recovery, sections 4.A and 4.G): on startup, if a pending
batch exists, "its owning tick is re-executed deterministically from the same inputs,
then committed" using "the same system order and the same drained transaction list";
the commit clears the pending region and advances the tick counter. -/
def loadGameState (systems : List GameSystem) (ds : DurableStore) :
    Except String (DurableStore × List (Nat × TxReceipt)) :=
  match ds.pending with
  | none => .ok (ds, [])
  | some (t, queue) =>
    match execTick systems ds.finalState queue with
    | .error e => .error e
    | .ok (s2, r) => .ok (⟨s2, t + 1, none⟩, r)

/-! ## Receipt history window (modelled from the spec, pinned by the tests) -/

/-- Modelled from the spec: the receipt history is a bounded ring keyed by tick. The
oldest retrievable tick. `TestTransactionReceiptReturnCorrectTickWindows` pins the
retention at historySize + 1 ticks (it asserts `EndTick - StartTick - 1 = historySize`
once the ring is full, and `StartTick = CurrentTick() - historySize - 1`). -/
def ringLowestTick (historySize currentTick : Nat) : Nat :=
  currentTick - (historySize + 1)

/-- Whether the ring, at `currentTick` with the given history size, still holds the
receipts of tick `t` (only completed ticks are in the ring). -/
def tickInRing (historySize currentTick t : Nat) : Prop :=
  ringLowestTick historySize currentTick ≤ t ∧ t < currentTick

instance (historySize currentTick t : Nat) :
    Decidable (tickInRing historySize currentTick t) := by
  unfold tickInRing; infer_instance

/-- Modelled from the spec: the receipts-list query returns the largest half-open
window contained in the ring whose start is at least the requested start tick; when the
request is at or beyond the current tick, the empty window at the current tick. -/
def receiptWindow (historySize currentTick startTick : Nat) : Nat × Nat :=
  if currentTick ≤ startTick then (currentTick, currentTick)
  else (max startTick (ringLowestTick historySize currentTick), currentTick)

/-! ## Receipt result and error operations (modelled from the spec) -/

/-- Modelled from the spec: `AddError(hash, err)` accumulates — append the error to the
receipt of the given transaction hash (receipts for drained transactions are seeded
before systems run; a missing hash gets a fresh receipt holding just the error). -/
def addError (m : List (Nat × TxReceipt)) (h : Nat) (e : String) : List (Nat × TxReceipt) :=
  match m.find? (fun p => p.1 == h) with
  | some r => (h, ⟨r.2.result, r.2.errs ++ [e]⟩) :: m.eraseP (fun p => p.1 == h)
  | none => (h, ⟨none, [e]⟩) :: m

/-- Modelled from the spec: `SetResult(hash, value)` — last writer wins; the receipt's
single result slot is overwritten. -/
def setResult (m : List (Nat × TxReceipt)) (h : Nat) (v : Int) : List (Nat × TxReceipt) :=
  match m.find? (fun p => p.1 == h) with
  | some r => (h, ⟨some v, r.2.errs⟩) :: m.eraseP (fun p => p.1 == h)
  | none => (h, ⟨some v, []⟩) :: m

/-- Look up the receipt recorded for a transaction hash. -/
def getReceipt (m : List (Nat × TxReceipt)) (h : Nat) : Option TxReceipt :=
  (m.find? (fun p => p.1 == h)).map (fun p => p.2)

/-! ## CQL filters (modelled from the spec, section 4.C) -/

/-- Modelled from the spec: a search filter is one of `Exact(set)`, `Contains(set)`,
`Not(f)`, `And(a,b)`, `Or(a,b)`; component sets are represented as lists of component
IDs with set semantics. -/
inductive Filter where
  | Exact (s : List Nat)
  | Contains (s : List Nat)
  | Not (f : Filter)
  | And (a b : Filter)
  | Or (a b : Filter)
deriving Repr, DecidableEq

/-- Boolean subset test on component-ID lists. -/
def subsetB (a b : List Nat) : Bool :=
  a.all (fun x => b.contains x)

/-- Boolean set equality on component-ID lists. -/
def setEqB (a b : List Nat) : Bool :=
  subsetB a b && subsetB b a

/-- Modelled from the spec: filter evaluation against an entity's archetype —
`Exact` is set equality, `Contains` is archetype-superset, and the connectives are
boolean complement, conjunction and disjunction. -/
def matchesFilter (arch : List Nat) : Filter → Bool
  | .Exact s => setEqB arch s
  | .Contains s => subsetB s arch
  | .Not f => !(matchesFilter arch f)
  | .And a b => matchesFilter arch a && matchesFilter arch b
  | .Or a b => matchesFilter arch a || matchesFilter arch b

/-- The propositional set semantics the spec describes for filters: archetype equals
the set, archetype is a superset of the set, and complement, intersection, union. -/
def filterSem (arch : List Nat) : Filter → Prop
  | .Exact s => ∀ x, x ∈ arch ↔ x ∈ s
  | .Contains s => ∀ x, x ∈ s → x ∈ arch
  | .Not f => ¬ filterSem arch f
  | .And a b => filterSem arch a ∧ filterSem arch b
  | .Or a b => filterSem arch a ∨ filterSem arch b

/-- Count the entities of a world (a list of archetypes, one per entity) matched by a
filter. -/
def countMatching (world : List (List Nat)) (f : Filter) : Nat :=
  world.countP (fun a => matchesFilter a f)

/-- The world of the CQL scenario: 75 entities with component set containing only
alpha (ID 0), 100 with alpha and beta (IDs 0, 1), and 1 with gamma (ID 2). -/
def cqlWorld : List (List Nat) :=
  List.replicate 75 [0] ++ List.replicate 100 [0, 1] ++ [[2]]

/-! ## Theorems -/

/-- Claim C1: if any system returns an error (or panics) during a tick, no write made
by any system during that tick is visible to any later tick or query — the observable
world state after the failed tick equals the state after the last successfully
committed tick, and the tick counter does not advance. -/
theorem failed_tick_discards_all_writes
    (systems : List GameSystem) (queue : List Tx) (w : WorldState) (e : String)
    (hfail : (tickWorld systems queue w).2.2 = some e) :
    (tickWorld systems queue w).1 = w ∧
    ∀ k, queryComponent (tickWorld systems queue w).1 k = queryComponent w k := by
  unfold tickWorld at hfail ⊢
  cases hr : runSystems systems queue ⟨w.store, Ecb.empty, seedReceipts queue⟩ with
  | error e2 => simp [hr]
  | ok ctx => rw [hr] at hfail; simp at hfail

/-- A system that stages a component write into the entity-command buffer. -/
def sysWrite : GameSystem :=
  fun _ ctx => .ok { ctx with ecb := ecbSet ctx.ecb (1, 0) 42 }

/-- A system that always fails. -/
def sysBoom : GameSystem :=
  fun _ _ => .error "boom"

/-- A world with one committed component value, at tick 3. -/
def w0 : WorldState := ⟨[((1, 0), 7)], 3⟩

/-- Witness for C1: a tick in which one system stages a write and a later system fails
leaves the committed world untouched. -/
theorem failed_tick_discards_all_writes_witness :
    (tickWorld [sysWrite, sysBoom] [] w0).2.2 = some "boom" ∧
      (tickWorld [sysWrite, sysBoom] [] w0).1 = w0 :=
  ⟨rfl, (failed_tick_discards_all_writes [sysWrite, sysBoom] [] w0 "boom" rfl).1⟩

/-- Claim C3: starting from a durable store holding a pending batch for tick T together
with the drained queue for tick T, loading the game state re-executes tick T and lands
on exactly the post-tick state and receipts that the original execution of tick T would
have produced. -/
theorem recovery_replays_pending_tick
    (systems : List GameSystem) (s : Store) (q : List Tx) (t : Nat)
    (s2 : Store) (r : List (Nat × TxReceipt))
    (horig : tickWorld systems q ⟨s, t⟩ = (⟨s2, t + 1⟩, r, none)) :
    loadGameState systems ⟨s, t, some (t, q)⟩ = .ok (⟨s2, t + 1, none⟩, r) := by
  unfold tickWorld at horig
  unfold loadGameState execTick
  cases hr : runSystems systems q ⟨s, Ecb.empty, seedReceipts q⟩ with
  | error e => rw [hr] at horig; simp at horig
  | ok ctx =>
      rw [hr] at horig
      simp only [Prod.mk.injEq, WorldState.mk.injEq] at horig
      dsimp only
      rw [hr]
      simp [horig.1.1, horig.2.1]

/-- A system that writes the first drained payload into component slot 0 of entity 0. -/
def sysStoreFirst : GameSystem :=
  fun q ctx =>
    match q with
    | [] => .ok ctx
    | t :: _ => .ok { ctx with ecb := ecbSet ctx.ecb (0, 0) t.payload }

/-- Witness for C3: recovery of a pending tick-4 batch with a one-transaction queue
reproduces the original post-tick store and receipts. -/
theorem recovery_replays_pending_tick_witness :
    loadGameState [sysStoreFirst] ⟨[], 4, some (4, [⟨9, 5⟩])⟩ =
      .ok (⟨[((0, 0), 5)], 5, none⟩, [(9, ⟨none, []⟩)]) :=
  recovery_replays_pending_tick [sysStoreFirst] [] [⟨9, 5⟩] 4 [((0, 0), 5)]
    [(9, ⟨none, []⟩)] rfl

/-- Claim C6: for a transaction hash H drained into a tick (so its empty receipt is
seeded), the call sequence AddError e1, AddError e2, SetResult r1, SetResult r2 leaves
the receipt for H with the error list [e1, e2] in call order and the single result r2:
SetResult overwrites, AddError accumulates. -/
theorem receipt_errors_accumulate_result_overwrites
    (h : Nat) (p : Int) (e1 e2 : String) (r1 r2 : Int) :
    getReceipt
      (setResult (setResult (addError (addError (seedReceipts [⟨h, p⟩]) h e1) h e2) h r1) h r2)
      h = some ⟨some r2, [e1, e2]⟩ := by
  simp [seedReceipts, addError, setResult, getReceipt, List.find?, List.eraseP]

/-- Counterexample to claim C4: with history size 10 and current tick 25, a receipts
request with start tick 0 yields the window from tick 14 (not 15) to tick 25, spanning
11 (not 10) ticks — the ring retains historySize + 1 completed ticks. -/
theorem receipt_window_size_counterexample :
    receiptWindow 10 25 0 = (14, 25) ∧ receiptWindow 10 25 0 ≠ (15, 25) ∧
      (receiptWindow 10 25 0).2 - (receiptWindow 10 25 0).1 = 11 := by
  decide

/-- Claim C4 (amended): the receipts-list query with start tick S returns the largest
half-open window contained in the receipt ring with start at least S, where the ring
holds the last historySize + 1 completed ticks; with history size 10 and current tick
25, a request with start tick 0 returns the window from 14 to 25, 11 ticks of entries;
a request at or beyond the current tick returns the empty window at the current tick. -/
theorem receipt_window_amended (N c S : Nat) :
    (S < c →
      S ≤ (receiptWindow N c S).1 ∧
      (∀ t, (receiptWindow N c S).1 ≤ t → t < (receiptWindow N c S).2 → tickInRing N c t) ∧
      (∀ a b, S ≤ a → (∀ t, a ≤ t → t < b → tickInRing N c t) → a < b →
        (receiptWindow N c S).1 ≤ a ∧ b ≤ (receiptWindow N c S).2)) ∧
    (c ≤ S → receiptWindow N c S = (c, c)) ∧
    receiptWindow 10 25 0 = (14, 25) ∧
    (receiptWindow 10 25 0).2 - (receiptWindow 10 25 0).1 = 11 := by
  refine ⟨?_, ?_, by decide, by decide⟩
  · intro hS
    have hlt : ¬ c ≤ S := Nat.not_le.mpr hS
    constructor
    · simp [receiptWindow, hlt, Nat.le_max_left]
    constructor
    · intro t h1 h2
      simp only [receiptWindow, if_neg hlt] at h1 h2
      exact ⟨le_trans (Nat.le_max_right _ _) h1, h2⟩
    · intro a b hSa hcontained hab
      have hin := hcontained a (le_refl a) hab
      simp only [receiptWindow, if_neg hlt]
      constructor
      · exact Nat.max_le.mpr ⟨hSa, hin.1⟩
      · have := (hcontained (b - 1) (by omega) (by omega)).2
        omega
  · intro hcS
    simp [receiptWindow, hcS]

/-- Witness for C4 (amended): tick 14 is in the ring at current tick 25 with history
size 10, and the start-tick-0 window is exactly that returned window. -/
theorem receipt_window_amended_witness :
    tickInRing 10 25 14 ∧ receiptWindow 10 25 0 = (14, 25) :=
  ⟨(((receipt_window_amended 10 25 0).1 (by decide)).2.1) 14 (by decide) (by decide),
   (receipt_window_amended 10 25 0).2.2.1⟩

/-- Subset tests on component-ID lists agree with membership-based subset. -/
theorem subsetB_eq_true (a b : List Nat) :
    subsetB a b = true ↔ ∀ x, x ∈ a → x ∈ b := by
  simp [subsetB, List.all_eq_true]

set_option maxRecDepth 4000 in
/-- Claim C5: filter evaluation matches the set semantics of filters (Contains is
archetype-superset, Exact is set equality, and the connectives are complement,
intersection, union), and on the scenario world of 75 alpha entities, 100 alpha-beta
entities and 1 gamma entity, the five scenario queries match 100, 175, 75, 0 and 1
entities respectively. -/
theorem cql_filter_set_semantics_and_counts :
    (∀ (arch : List Nat) (f : Filter), matchesFilter arch f = true ↔ filterSem arch f) ∧
    countMatching cqlWorld (.And (.Contains [0]) (.Contains [1])) = 100 ∧
    countMatching cqlWorld (.Or (.Contains [0]) (.Contains [1])) = 175 ∧
    countMatching cqlWorld (.Exact [0]) = 75 ∧
    countMatching cqlWorld (.Exact [1]) = 0 ∧
    countMatching cqlWorld (.Not (.Or (.Contains [0]) (.Contains [1]))) = 1 := by
  refine ⟨?_, by decide, by decide, by decide, by decide, by decide⟩
  intro arch f
  induction f with
  | Exact s =>
      simp only [matchesFilter, filterSem, setEqB, Bool.and_eq_true, subsetB_eq_true]
      constructor
      · rintro ⟨h1, h2⟩ x; exact ⟨fun hx => h1 x hx, fun hx => h2 x hx⟩
      · intro h; exact ⟨fun x hx => (h x).mp hx, fun x hx => (h x).mpr hx⟩
  | Contains s =>
      simp only [matchesFilter, filterSem, subsetB_eq_true]
  | Not f ih =>
      simp only [matchesFilter, filterSem, Bool.not_eq_true', ← ih]
      exact ⟨fun h => by simp [h], fun h => by simpa using h⟩
  | And a b iha ihb =>
      simp [matchesFilter, filterSem, iha, ihb]
  | Or a b iha ihb =>
      simp [matchesFilter, filterSem, iha, ihb]

/-- Lookup on a freshly inserted association-list binding. -/
theorem mapLookup_cons (k v key : String) (m : List (String × String)) :
    mapLookup ((k, v) :: m) key = if (k == key) = true then some v else mapLookup m key := by
  by_cases hk : (k == key) = true
  · simp [mapLookup, List.find?_cons, hk]
  · simp only [Bool.not_eq_true] at hk
    simp [mapLookup, List.find?_cons, hk]

/-- The persona-tag mapping built from the signer records misses a key exactly when no
record's lowercased tag equals it. -/
theorem buildMapping_lookup_none (records : List SignerComponent)
    (acc : List (String × String)) (key : String) :
    mapLookup
        (records.foldl (fun m sc => mapInsert m (toLowerStr sc.personaTag) sc.signerAddress) acc)
        key = none ↔
      (mapLookup acc key = none ∧ ∀ sc ∈ records, ¬ toLowerStr sc.personaTag = key) := by
  induction records generalizing acc with
  | nil => simp
  | cons sc rest ih =>
      rw [List.foldl_cons]
      rw [ih (mapInsert acc (toLowerStr sc.personaTag) sc.signerAddress)]
      unfold mapInsert
      rw [mapLookup_cons]
      by_cases hk : (toLowerStr sc.personaTag == key) = true
      · rw [if_pos hk]
        simp only [beq_iff_eq] at hk
        constructor
        · rintro ⟨h1, -⟩; cases h1
        · rintro ⟨-, h2⟩
          exact absurd hk (h2 sc (List.mem_cons_self sc rest))
      · rw [if_neg hk]
        simp only [beq_iff_eq] at hk
        constructor
        · rintro ⟨h1, h2⟩
          refine ⟨h1, fun c hc => ?_⟩
          rcases List.mem_cons.mp hc with rfl | hc2
          · exact hk
          · exact h2 c hc2
        · rintro ⟨h1, h2⟩
          exact ⟨h1, fun c hc => h2 c (List.mem_cons.mpr (Or.inr hc))⟩

/-- Counterexample to claim C7: the string xyzzy is not a valid 20-byte hex address,
yet a create-persona claim carrying it as signer address is accepted by
RegisterPersonaSystem with Success true and a signer record is created for it — the
system validates only the persona tag. -/
theorem create_persona_address_not_validated :
    isHexAddress "xyzzy" = false ∧
    registerPersonaSystem [] [⟨"foobar", "xyzzy"⟩] =
      ([⟨"foobar", "xyzzy", []⟩], [(⟨true⟩, none)]) := by
  constructor
  · decide
  · rfl

/-- Claim C7 (amended): a create-persona claim is accepted exactly when its personaTag
matches the pattern of ASCII alphanumerics and underscores and is not already taken in
the lowercased mapping; the signerAddress is never validated. A rejected claim yields
Success false with an error and leaves the records unchanged; an accepted claim
appends a signer record carrying the tag and address as given. -/
theorem create_persona_validation_amended
    (records : List SignerComponent) (mapping : List (String × String))
    (msg : CreatePersona) :
    ((createPersonaStep records mapping msg).2.2.1.success = true ↔
      (isAlphanumericWithUnderscore msg.personaTag = true ∧
        mapLookup mapping (toLowerStr msg.personaTag) = none)) ∧
    ((createPersonaStep records mapping msg).2.2.1.success = true →
      (createPersonaStep records mapping msg).1 =
        records ++ [⟨msg.personaTag, msg.signerAddress, []⟩]) ∧
    ((createPersonaStep records mapping msg).2.2.1.success = false →
      (createPersonaStep records mapping msg).1 = records ∧
        ((createPersonaStep records mapping msg).2.2.2).isSome = true) := by
  by_cases hv : isAlphanumericWithUnderscore msg.personaTag = true
  · cases hm : mapLookup mapping (toLowerStr msg.personaTag) with
    | none => simp [createPersonaStep, hv, hm]
    | some v => simp [createPersonaStep, hv, hm]
  · simp only [Bool.not_eq_true] at hv
    simp [createPersonaStep, hv]

/-- Witness for C7 (amended): the accepted xyzzy-address claim appends its signer
record. -/
theorem create_persona_validation_amended_witness :
    (createPersonaStep [] [] ⟨"foobar", "xyzzy"⟩).1 = [⟨"foobar", "xyzzy", []⟩] :=
  (create_persona_validation_amended [] [] ⟨"foobar", "xyzzy"⟩).2.1 (by decide)

/-- A world holding one registered persona, used to exhibit the case-sensitivity of
signer lookup. -/
def coolMageWorld : PersonaWorld := ⟨1, [⟨"CoolMage", "0xabc", []⟩]⟩

/-- Counterexample to claim C8: looking up the signer address for a registered tag does
not succeed regardless of letter case — the exact-case lookup succeeds while the
lowercased lookup of the same tag fails with ErrPersonaTagHasNoSigner, because
GetSignerForPersonaTag compares tags with case-sensitive equality. -/
theorem persona_lookup_not_case_insensitive :
    getSignerForPersonaTag coolMageWorld "CoolMage" 0 = .ok "0xabc" ∧
    getSignerForPersonaTag coolMageWorld "coolmage" 0 = .error .personaTagHasNoSigner := by
  constructor <;> rfl

/-- Claim C8 (amended): persona-tag comparison is case-insensitive at registration
(claiming a tag that differs from an existing one only in letter case is rejected as a
duplicate) and the stored record preserves the case used at registration, but
GetSignerForPersonaTag looks tags up case-sensitively: the lookup fails when no record
carries exactly the requested tag, and succeeds exactly on the first record whose tag
matches the request byte for byte. -/
theorem persona_case_handling_amended
    (records : List SignerComponent) (msg : CreatePersona)
    (w : PersonaWorld) (tag : String) (t : Nat) :
    ((∃ sc ∈ records, toLowerStr sc.personaTag = toLowerStr msg.personaTag) →
      (registerPersonaOne records msg).2.1.success = false) ∧
    (t < w.currentTick → (∀ sc ∈ w.records, ¬ sc.personaTag = tag) →
      getSignerForPersonaTag w tag t = .error .personaTagHasNoSigner) ∧
    (∀ sc : SignerComponent, t < w.currentTick →
      w.records.find? (fun c => c.personaTag == tag) = some sc →
      ¬ sc.signerAddress = "" →
      getSignerForPersonaTag w tag t = .ok sc.signerAddress) := by
  refine ⟨?_, ?_, ?_⟩
  · rintro ⟨sc, hsc, heq⟩
    unfold registerPersonaOne createPersonaStep
    by_cases hv : isAlphanumericWithUnderscore msg.personaTag = true
    · cases hm : mapLookup (buildPersonaTagMapping records) (toLowerStr msg.personaTag) with
      | none =>
          exfalso
          have := (buildMapping_lookup_none records [] (toLowerStr msg.personaTag)).mp hm
          exact this.2 sc hsc heq
      | some v => simp [hv, hm]
    · simp only [Bool.not_eq_true] at hv
      simp [hv]
  · intro ht hnone
    have hlt : ¬ w.currentTick ≤ t := Nat.not_le.mpr ht
    unfold getSignerForPersonaTag
    rw [if_neg hlt]
    have : w.records.find? (fun sc => sc.personaTag == tag) = none := by
      rw [List.find?_eq_none]
      intro sc hsc
      simpa using hnone sc hsc
    rw [this]
  · intro sc ht hfind haddr
    have hlt : ¬ w.currentTick ≤ t := Nat.not_le.mpr ht
    unfold getSignerForPersonaTag
    rw [if_neg hlt, hfind]
    simp [haddr]

/-- Witness for C8 (amended): claiming coolmage while CoolMage is registered fails, and
the exact-case lookup in `coolMageWorld` returns the stored address. -/
theorem persona_case_handling_amended_witness :
    (registerPersonaOne [⟨"CoolMage", "0xabc", []⟩] ⟨"coolmage", "0xdef"⟩).2.1.success
        = false ∧
    getSignerForPersonaTag coolMageWorld "CoolMage" 0 = .ok "0xabc" :=
  ⟨(persona_case_handling_amended [⟨"CoolMage", "0xabc", []⟩] ⟨"coolmage", "0xdef"⟩
      coolMageWorld "CoolMage" 0).1
      ⟨⟨"CoolMage", "0xabc", []⟩, by decide, by decide⟩,
   (persona_case_handling_amended [⟨"CoolMage", "0xabc", []⟩] ⟨"coolmage", "0xdef"⟩
      coolMageWorld "CoolMage" 0).2.2 ⟨"CoolMage", "0xabc", []⟩ (by decide) (by decide)
      (by decide)⟩

/-- Claim C9: when signature verification is disabled, verifySignature succeeds right
after the non-empty personaTag check, with the handler unchanged (no nonce consumed),
for every namespace, system flag, signature-check function and nonce; consequently the
same transaction — hence the same signer/nonce pair — is accepted any number of times. -/
theorem disabled_verification_skips_all_checks
    (h : Handler) (cv : Transaction → String → Bool) (sp : Transaction) (b : Bool)
    (hdis : h.disableSigVerification = true) (htag : ¬ sp.personaTag = "") :
    verifySignature h cv sp b = .ok h ∧
    ∀ n : Nat, processTxs h cv (List.replicate n (sp, b)) = (h, n) := by
  have hok : verifySignature h cv sp b = .ok h := by
    simp [verifySignature, htag, hdis]
  refine ⟨hok, ?_⟩
  intro n
  induction n with
  | zero => simp [processTxs]
  | succ n ih => simp [List.replicate_succ, processTxs, hok, ih]

/-- A handler running in dev mode with signature verification disabled. -/
def hDis : Handler := ⟨true, "ns", ⟨0, []⟩, []⟩

/-- A transaction envelope with a wrong namespace and an arbitrary nonce. -/
def spMeow : Transaction := ⟨"meow", "other-ns", 40, false, none⟩

/-- Witness for C9: a wrong-namespace transaction is accepted three times in a row with
no nonce consumed when verification is disabled. -/
theorem disabled_verification_skips_all_checks_witness :
    verifySignature hDis (fun _ _ => false) spMeow false = .ok hDis ∧
    processTxs hDis (fun _ _ => false) (List.replicate 3 (spMeow, false)) = (hDis, 3) :=
  ⟨(disabled_verification_skips_all_checks hDis (fun _ _ => false) spMeow false rfl
      (by decide)).1,
   (disabled_verification_skips_all_checks hDis (fun _ _ => false) spMeow false rfl
      (by decide)).2 3⟩

/-- Claim C10: while currentTick is 0 and verification is enabled, every transaction
checked with the non-system expectation fails verification, because the handler
resolves the signer through GetSignerForPersonaTag at tick 0 and that function errors
whenever the given tick is at least the world's current tick. -/
theorem tick_zero_rejects_non_system_transactions
    (h : Handler) (cv : Transaction → String → Bool) (sp : Transaction)
    (hen : h.disableSigVerification = false) (htick : h.world.currentTick = 0) :
    (∃ e, verifySignature h cv sp false = .error e) ∧
    (∀ (w : PersonaWorld) (tag : String) (t : Nat), w.currentTick ≤ t →
      getSignerForPersonaTag w tag t = .error .createPersonaTxsNotProcessed) := by
  constructor
  · by_cases h1 : (sp.personaTag == "") = true
    · exact ⟨.emptyPersonaTag, by simp [verifySignature, h1]⟩
    · by_cases h2 : (sp.txNamespace == h.worldNamespace) = true
      · by_cases h3 : sp.isSystemTx = true
        · exact ⟨.systemTransactionForbidden, by simp [verifySignature, h1, hen, h2, h3]⟩
        · refine ⟨.signerLookupFailed .createPersonaTxsNotProcessed, ?_⟩
          have hres : resolveSigner h sp =
              .error (.signerLookupFailed .createPersonaTxsNotProcessed) := by
            simp only [Bool.not_eq_true] at h3
            simp [resolveSigner, h3, getSignerForPersonaTag, htick]
          simp [verifySignature, h1, hen, h2, h3, hres]
      · exact ⟨.wrongNamespace, by simp [verifySignature, h1, hen, h2]⟩
  · intro w tag t hwt
    simp [getSignerForPersonaTag, hwt]

/-- A handler with verification enabled and an empty world at tick 0. -/
def hTick0 : Handler := ⟨false, "ns", ⟨0, []⟩, []⟩

/-- A well-formed non-system transaction for the world namespace. -/
def spGame : Transaction := ⟨"meow", "ns", 7, false, none⟩

/-- Witness for C10: at tick 0, the well-formed non-system transaction is rejected, and
the signer lookup at tick 0 errors. -/
theorem tick_zero_rejects_non_system_transactions_witness :
    (∃ e, verifySignature hTick0 (fun _ _ => true) spGame false = .error e) ∧
    getSignerForPersonaTag hTick0.world "meow" 0 =
      .error .createPersonaTxsNotProcessed :=
  ⟨(tick_zero_rejects_non_system_transactions hTick0 (fun _ _ => true) spGame rfl rfl).1,
   (tick_zero_rejects_non_system_transactions hTick0 (fun _ _ => true) spGame rfl rfl).2
      hTick0.world "meow" 0 (by decide)⟩

/-- With verification enabled, a successful verifySignature call performed exactly one
nonce insertion: the resolved signer's pair was absent and is prepended to the set,
everything else in the handler being unchanged. -/
theorem verify_ok_enabled
    (h : Handler) (cv : Transaction → String → Bool) (sp : Transaction) (b : Bool)
    (h2 : Handler) (hen : h.disableSigVerification = false)
    (hok : verifySignature h cv sp b = .ok h2) :
    ∃ addr, resolveSigner h sp = .ok addr ∧ ¬ (addr, sp.nonce) ∈ h.nonceSet ∧
      h2 = { h with nonceSet := (addr, sp.nonce) :: h.nonceSet } := by
  unfold verifySignature at hok
  rw [hen] at hok
  simp only [Bool.false_eq_true, if_false] at hok
  split at hok
  · cases hok
  · split at hok
    · cases hok
    · split at hok
      · cases hok
      · split at hok
        · cases hok
        · split at hok
          · cases hok
          · rename_i addr heq
            refine ⟨addr, heq, ?_⟩
            split at hok
            · cases hok
            · split at hok
              · cases hok
              · rename_i ns hns
                unfold useNonce at hns
                split at hns
                · cases hns
                · rename_i hmem
                  cases hns
                  cases hok
                  exact ⟨hmem, by rw [hen]⟩

/-- With verification enabled, the nonce set only stays or grows along processing, and
it stays duplicate-free. -/
theorem processTxs_nonceSet_nodup
    (cv : Transaction → String → Bool) (txs : List (Transaction × Bool)) (h : Handler)
    (hen : h.disableSigVerification = false) (hnd : h.nonceSet.Nodup) :
    ((processTxs h cv txs).1.nonceSet).Nodup := by
  induction txs generalizing h with
  | nil => simpa [processTxs] using hnd
  | cons t ts ih =>
      cases hv : verifySignature h cv t.1 t.2 with
      | error e => simpa [processTxs, hv] using ih h hen hnd
      | ok h2 =>
          obtain ⟨addr, hres, hmem, hEq⟩ := verify_ok_enabled h cv t.1 t.2 h2 hen hv
          have hen2 : h2.disableSigVerification = false := by rw [hEq]; exact hen
          have hnd2 : h2.nonceSet.Nodup := by
            rw [hEq]
            exact List.nodup_cons.mpr ⟨hmem, hnd⟩
          simpa [processTxs, hv] using ih h2 hen2 hnd2

/-- Claim C2: with verification enabled, a transaction whose resolved signer/nonce pair
is already in the used-nonce set is rejected with HTTP status 401; a transaction whose
pair is unused — regardless of whether the nonce is lower than previously used ones —
is accepted whenever the remaining checks pass, consuming exactly that pair; hence the
used-nonce set (one entry per accepted transaction) never holds two equal pairs. -/
theorem nonce_pair_uniqueness
    (h : Handler) (cv : Transaction → String → Bool)
    (hen : h.disableSigVerification = false) :
    (∀ (sp : Transaction) (b : Bool) (addr : String),
      resolveSigner h sp = .ok addr → (addr, sp.nonce) ∈ h.nonceSet →
      httpStatusOfVerify (verifySignature h cv sp b) = 401) ∧
    (∀ (sp : Transaction) (b : Bool) (addr : String),
      ¬ sp.personaTag = "" → sp.txNamespace = h.worldNamespace → b = sp.isSystemTx →
      resolveSigner h sp = .ok addr → cv sp addr = true →
      ¬ (addr, sp.nonce) ∈ h.nonceSet →
      verifySignature h cv sp b =
        .ok { h with nonceSet := (addr, sp.nonce) :: h.nonceSet }) ∧
    (∀ txs : List (Transaction × Bool), h.nonceSet.Nodup →
      ((processTxs h cv txs).1.nonceSet).Nodup) := by
  refine ⟨?_, ?_, fun txs hnd => processTxs_nonceSet_nodup cv txs h hen hnd⟩
  · intro sp b addr hres hmem
    cases hv : verifySignature h cv sp b with
    | error e => rfl
    | ok h2 =>
        obtain ⟨addr2, hres2, hmem2, -⟩ := verify_ok_enabled h cv sp b h2 hen hv
        rw [hres] at hres2
        cases hres2
        exact absurd hmem hmem2
  · intro sp b addr htag hns hflag hres hcv hmem
    have h1 : (sp.personaTag == "") = false := by simpa using htag
    have h2 : (sp.txNamespace == h.worldNamespace) = true := by simpa using hns
    simp [verifySignature, h1, hen, h2, hflag, hres, hcv, useNonce, hmem]

/-- A handler with verification enabled whose used-nonce set already holds the pair of
signer 0xA and nonce 100. -/
def hNonce : Handler := ⟨false, "ns", ⟨1, []⟩, [("0xA", 100)]⟩

/-- A system transaction claiming a persona, signed by 0xA with the given nonce. -/
def spSys (n : Nat) : Transaction := ⟨"p", "ns", n, true, some ⟨"p", "0xA"⟩⟩

/-- Witness for C2: re-using nonce 100 yields status 401; the unused lower nonce 99 is
accepted and consumed; processing both leaves the nonce set duplicate-free. -/
theorem nonce_pair_uniqueness_witness :
    httpStatusOfVerify (verifySignature hNonce (fun _ _ => true) (spSys 100) true) = 401 ∧
    verifySignature hNonce (fun _ _ => true) (spSys 99) true =
      .ok { hNonce with nonceSet := ("0xA", 99) :: hNonce.nonceSet } ∧
    ((processTxs hNonce (fun _ _ => true) [(spSys 99, true), (spSys 100, true)]).1.nonceSet).Nodup :=
  ⟨(nonce_pair_uniqueness hNonce (fun _ _ => true) rfl).1 (spSys 100) true "0xA" rfl
      (by decide),
   (nonce_pair_uniqueness hNonce (fun _ _ => true) rfl).2.1 (spSys 99) true "0xA"
      (by decide) rfl rfl rfl rfl (by decide),
   (nonce_pair_uniqueness hNonce (fun _ _ => true) rfl).2.2
      [(spSys 99, true), (spSys 100, true)] (by decide)⟩

end WorldEngine
